import Mathlib

/-!
Verification of the docx-to-xbrl pipeline against its natural-language
specification.  The Python sources under `scripts/` are shallowly embedded:
Python strings become Lean `String` (operated on through `List Char`),
fallible transforms become `Except String String`, dictionaries become
insertion-ordered association lists, and the XML tree built by the emitter
becomes an inductive `XElem`.  Where a source function uses Python library
behaviour (`float(...)`, `str.split()`, `str.strip()`, single-character
`str.replace`), that behaviour is modelled explicitly below for the ASCII
fragment the pipeline operates on.
-/

namespace DocxXbrl

/-! ## Character classes and basic Python string operations -/

/-- ASCII whitespace as recognised by Python `str.strip`/`str.split`. -/
def isPyWs (c : Char) : Bool :=
  c == ' ' || c == Char.ofNat 9 || c == Char.ofNat 10 || c == Char.ofNat 13 ||
  c == Char.ofNat 11 || c == Char.ofNat 12

/-- ASCII decimal digit, the `\d` class of the source regexes. -/
def isDigit (c : Char) : Bool :=
  decide (48 ≤ c.toNat) && decide (c.toNat ≤ 57)

/-- ASCII uppercase letter, the `[A-Z]` class of the source regexes. -/
def isUpper (c : Char) : Bool :=
  decide (65 ≤ c.toNat) && decide (c.toNat ≤ 90)

/-- Numeric value of a digit character. -/
def digitVal (c : Char) : Nat := c.toNat - 48

/-- Python `str.strip()` on the character list. -/
def stripL (l : List Char) : List Char :=
  ((l.dropWhile isPyWs).reverse.dropWhile isPyWs).reverse

/-! ## Python `float(...)` literal acceptance

`_num_dot_decimal` and `_num_comma_decimal` validate their cleaned value by
calling `float(cleaned)`.  The acceptor below models CPython's string-to-float
grammar on ASCII input: optional surrounding whitespace, an optional sign,
then `inf`/`infinity`/`nan` (case-insensitive) or a decimal mantissa with
optional exponent; underscores are allowed only between digits. -/

/-- Consume `(['_'] digit | digit)*`, the tail of a Python digit-part. -/
def digitsRest : List Char → List Char
  | '_' :: c :: cs => if isDigit c then digitsRest cs else '_' :: c :: cs
  | c :: cs => if isDigit c then digitsRest cs else c :: cs
  | [] => []

/-- Consume a Python digit-part (`digit (['_'] digit)*`); `none` on failure. -/
def parseDigitpart : List Char → Option (List Char)
  | c :: cs => if isDigit c then some (digitsRest cs) else none
  | [] => none

/-- Consume a float mantissa: `digits [. [digits]]` or `. digits`. -/
def parseMantissa (l : List Char) : Option (List Char) :=
  match parseDigitpart l with
  | some r =>
    match r with
    | '.' :: rest =>
      match parseDigitpart rest with
      | some r2 => some r2
      | none => some rest
    | _ => some r
  | none =>
    match l with
    | '.' :: rest => parseDigitpart rest
    | _ => none

/-- Consume an optional exponent `('e'|'E') [sign] digits`. -/
def parseExponent : List Char → Option (List Char)
  | c :: rest =>
    if c == 'e' || c == 'E' then
      match rest with
      | s :: r2 => if s == '+' || s == '-' then parseDigitpart r2 else parseDigitpart rest
      | [] => none
    else some (c :: rest)
  | [] => some []

/-- Accept the body of a float literal (after sign removal). -/
def pyFloatBody (l : List Char) : Bool :=
  let low := l.map Char.toLower
  if low == ['i', 'n', 'f'] || low == ['i', 'n', 'f', 'i', 'n', 'i', 't', 'y'] ||
     low == ['n', 'a', 'n'] then
    true
  else
    match parseMantissa l with
    | some r =>
      match parseExponent r with
      | some [] => true
      | _ => false
    | none => false

/-- Model of Python `float(s)` succeeding on `s`. -/
def pyFloatAccepts (s : String) : Bool :=
  match stripL s.data with
  | c :: cs => if c == '+' || c == '-' then pyFloatBody cs else pyFloatBody (c :: cs)
  | [] => false

/-! ## Decimal-numeral lexical grammar (specification side)

The lexical space of an XBRL decimal value: optional sign, then digits with
at most one decimal dot and at least one digit; no exponent, no infinities,
no NaN, no underscores.  Used to state what `canonicalValue` is *not*
guaranteed to satisfy. -/

/-- `digit* [. digit*]` containing at least one digit and no other character. -/
def decimalDigitsDot (l : List Char) : Bool :=
  let intPart := l.takeWhile isDigit
  match l.drop intPart.length with
  | [] => !intPart.isEmpty
  | '.' :: rest => (!intPart.isEmpty || !rest.isEmpty) && rest.all isDigit
  | _ => false

/-- Membership in the decimal-numeral lexical grammar. -/
def isDecimalNumeral (s : String) : Bool :=
  match s.data with
  | c :: cs => if c == '+' || c == '-' then decimalDigitsDot cs else decimalDigitsDot (c :: cs)
  | [] => false

/-! ## Numeric transforms (`normalize.py`, `TransformationRegistry`)

Python `str.replace` with a single-character pattern and empty replacement is
exactly a character filter, and with a single-character replacement exactly a
character map; the cleaners below apply those steps in source order. -/

/-- Cleaning step of `_num_dot_decimal`: strip, drop spaces, drop commas. -/
def cleanDot (v : String) : String :=
  String.mk (((stripL v.data).filter (fun c => c != ' ')).filter (fun c => c != ','))

/-- `_num_dot_decimal`: `1,234.56` becomes `1234.56`. -/
def num_dot_decimal (v : String) : Except String String :=
  if pyFloatAccepts (cleanDot v) then Except.ok (cleanDot v)
  else Except.error ("Invalid number format: " ++ v)

/-- Cleaning step of `_num_comma_decimal`: strip, drop spaces, drop dots,
turn the decimal comma into a dot. -/
def cleanComma (v : String) : String :=
  String.mk ((((stripL v.data).filter (fun c => c != ' ')).filter (fun c => c != '.')).map
    (fun c => if c == ',' then '.' else c))

/-- `_num_comma_decimal`: `1 234,56` becomes `1234.56`. -/
def num_comma_decimal (v : String) : Except String String :=
  if pyFloatAccepts (cleanComma v) then Except.ok (cleanComma v)
  else Except.error ("Invalid number format: " ++ v)

/-- Character class `[\d\s,\.]` of the `_num_unit_decimal` regex. -/
def unitBodyClass (c : Char) : Bool :=
  isDigit c || isPyWs c || c == ',' || c == '.'

/-- `_num_unit_decimal`: `1 234,56 EUR` becomes `1234.56`.  The regex
`^([\d\s,\.]+)\s*[A-Z]{3}$` on the stripped value is equivalent to: the last
three characters are uppercase letters and the nonempty remainder lies in the
body class (the greedy group then captures the whole remainder). -/
def num_unit_decimal (v : String) : Except String String :=
  let t := stripL v.data
  let n := t.length
  if n < 4 then Except.error ("Invalid unit number format: " ++ v)
  else
    let body := t.take (n - 3)
    let suf := t.drop (n - 3)
    if suf.all isUpper && body.all unitBodyClass then
      if body.contains ',' then num_comma_decimal (String.mk body)
      else num_dot_decimal (String.mk body)
    else Except.error ("Invalid unit number format: " ++ v)

/-! ## Date transforms -/

/-- The regex `^(\d{2})sep(\d{2})sep(\d{4})$`: on success the three captured
groups, in order of appearance. -/
def matchSepDate (sep : Char) (l : List Char) : Option (String × String × String) :=
  match l with
  | [a, b, s1, c, d, s2, e, f, g, h] =>
    if isDigit a && isDigit b && isDigit c && isDigit d && isDigit e && isDigit f &&
       isDigit g && isDigit h && s1 == sep && s2 == sep then
      some (String.mk [a, b], String.mk [c, d], String.mk [e, f, g, h])
    else none
  | _ => none

/-- Python `int(...)` on a two-digit capture group. -/
def strToNat2 (s : String) : Nat :=
  match s.data with
  | [a, b] => 10 * digitVal a + digitVal b
  | _ => 0

/-- `_date_day_month_year`: `31.12.2025` becomes `2025-12-31`, with range
validation of day and month. -/
def date_day_month_year (v : String) : Except String String :=
  match matchSepDate '.' (stripL v.data) with
  | none => Except.error ("Invalid date format (expected DD.MM.YYYY): " ++ v)
  | some (day, month, year) =>
    if strToNat2 day < 1 || 31 < strToNat2 day then Except.error ("Invalid day: " ++ day)
    else if strToNat2 month < 1 || 12 < strToNat2 month then
      Except.error ("Invalid month: " ++ month)
    else Except.ok (year ++ "-" ++ month ++ "-" ++ day)

/-- `_date_day_month_year_slash`: `31/12/2025` becomes `2025-12-31`; the
source performs no range validation here. -/
def date_day_month_year_slash (v : String) : Except String String :=
  match matchSepDate '/' (stripL v.data) with
  | none => Except.error ("Invalid date format (expected DD/MM/YYYY): " ++ v)
  | some (day, month, year) => Except.ok (year ++ "-" ++ month ++ "-" ++ day)

/-- `_date_month_day_year`: `12/31/2025` becomes `2025-12-31`; the source
performs no range validation here. -/
def date_month_day_year (v : String) : Except String String :=
  match matchSepDate '/' (stripL v.data) with
  | none => Except.error ("Invalid date format (expected MM/DD/YYYY): " ++ v)
  | some (month, day, year) => Except.ok (year ++ "-" ++ month ++ "-" ++ day)

/-! ## `_normalize_space`: `' '.join(value.split())` -/

/-- Python `str.split()` with no separator: maximal nonempty runs of
non-whitespace characters, with `cur` the (reversed) word being read. -/
def wordsAux : List Char → List Char → List (List Char)
  | cur, [] => if cur.isEmpty then [] else [cur.reverse]
  | cur, c :: cs =>
    if isPyWs c then
      if cur.isEmpty then wordsAux [] cs else cur.reverse :: wordsAux [] cs
    else wordsAux (c :: cur) cs

/-- The word list of Python `value.split()`. -/
def pyWords (l : List Char) : List (List Char) := wordsAux [] l

/-- Python `' '.join(ws)`. -/
def joinWords : List (List Char) → List Char
  | [] => []
  | w :: ws =>
    match ws with
    | [] => w
    | _ :: _ => w ++ ' ' :: joinWords ws

/-- `_normalize_space`: collapse whitespace runs to single spaces, trim ends. -/
def normalize_space (v : String) : String :=
  String.mk (joinWords (pyWords v.data))

/-! ## Transformation dispatch (`TransformationRegistry.transform`)

`transforms.yml` is consumed as the list of transform names it declares
(Python dict keys in insertion order); the dispatcher first checks membership
and then branches on the name. -/

/-- `TransformationRegistry.transform raw_value transform_name`. -/
def applyTransform (transformNames : List String) (rawValue : String)
    (name : String) : Except String String :=
  if !transformNames.contains name then Except.error ("Unknown transformation: " ++ name)
  else if name == "ixt:num-dot-decimal" then num_dot_decimal rawValue
  else if name == "ixt:num-comma-decimal" then num_comma_decimal rawValue
  else if name == "ixt:num-unit-decimal" then num_unit_decimal rawValue
  else if name == "ixt:date-day-month-year" then date_day_month_year rawValue
  else if name == "ixt:date-day-month-year-slash" then date_day_month_year_slash rawValue
  else if name == "ixt:date-month-day-year" then date_month_day_year rawValue
  else if name == "ixt:boolean-true" then Except.ok "true"
  else if name == "ixt:boolean-false" then Except.ok "false"
  else if name == "ixt:normalize-space" then Except.ok (normalize_space rawValue)
  else Except.error ("Transformation not implemented: " ++ name)

/-! ## Fact data model (`normalize.py`) -/

/-- A raw fact produced by `extract_docx.py`. -/
structure RawFact where
  factId : String
  rawText : String
  position : Nat
deriving DecidableEq, Repr

/-- A fact-definition registry entry (`facts.yml`). -/
structure FactDef where
  concept : String
  typ : String
  contextRef : String
  decimals : Option Int
  unitRef : Option String
  transform : Option String
deriving DecidableEq, Repr

/-- A canonical fact as written by `FactNormalizer.normalize`. -/
structure CanonicalFact where
  factId : String
  rawValue : String
  canonicalValue : String
  concept : String
  typ : String
  contextRef : String
  decimals : Option Int
  unitRef : Option String
deriving DecidableEq, Repr

/-- Lookup in an insertion-ordered dictionary (Python `dict`). -/
def alookup {α : Type} (l : List (String × α)) (k : String) : Option α :=
  match l with
  | [] => none
  | (k', v) :: rest => if k' == k then some v else alookup rest k

/-- Errors accumulated by `FactNormalizer.normalize`: an unknown `factId`
(`"Unknown factId: ..."`) or a failed transform (`"factId: message"`). -/
inductive NormError where
  | lookupErr (factId : String)
  | validationErr (factId : String) (msg : String)
deriving DecidableEq, Repr

/-- The transform applied to one raw value: the registry entry's declared
transform when present, plain whitespace normalization otherwise. -/
def applyDeclared (transformNames : List String) (fd : FactDef)
    (raw : String) : Except String String :=
  match fd.transform with
  | some tn => applyTransform transformNames raw tn
  | none => Except.ok (normalize_space raw)

/-- Processing of a single raw fact inside the `normalize` loop. -/
def normalizeStep (reg : List (String × FactDef)) (transformNames : List String)
    (rf : RawFact) : Except NormError CanonicalFact :=
  match alookup reg rf.factId with
  | none => Except.error (NormError.lookupErr rf.factId)
  | some fd =>
    match applyDeclared transformNames fd rf.rawText with
    | Except.ok cv =>
      Except.ok
        { factId := rf.factId, rawValue := rf.rawText, canonicalValue := cv,
          concept := fd.concept, typ := fd.typ, contextRef := fd.contextRef,
          decimals := fd.decimals, unitRef := fd.unitRef }
    | Except.error e => Except.error (NormError.validationErr rf.factId e)

/-- `FactNormalizer.normalize`: the whole batch is traversed, successes and
errors are accumulated in encounter order and a failure never aborts the
loop. -/
def normalizeAll (reg : List (String × FactDef)) (transformNames : List String) :
    List RawFact → List CanonicalFact × List NormError
  | [] => ([], [])
  | rf :: rest =>
    match normalizeStep reg transformNames rf, normalizeAll reg transformNames rest with
    | Except.ok c, (cs, es) => (c :: cs, es)
    | Except.error e, (cs, es) => (cs, e :: es)

/-- After the batch, `normalize` calls `sys.exit(1)` exactly when the error
list is nonempty. -/
def normalizeFails (reg : List (String × FactDef)) (transformNames : List String)
    (rfs : List RawFact) : Bool :=
  !(normalizeAll reg transformNames rfs).2.isEmpty

/-! ## XML element model (`emit_xbrl.py`)

An lxml element: namespace URI, local name, attributes (an attribute key is a
namespace/name pair, with namespace `""` for plain attributes), text, and
children in document order. -/

inductive XElem where
  | mk (ns localName : String) (attrs : List ((String × String) × String))
      (txt : String) (children : List XElem)

/-- Namespace URI of an element. -/
def XElem.nsOf : XElem → String
  | .mk n _ _ _ _ => n

/-- Local name of an element. -/
def XElem.localName : XElem → String
  | .mk _ l _ _ _ => l

/-- Attribute list of an element. -/
def XElem.attrs : XElem → List ((String × String) × String)
  | .mk _ _ a _ _ => a

/-- Text content of an element. -/
def XElem.txt : XElem → String
  | .mk _ _ _ t _ => t

/-- Children of an element, in document order. -/
def XElem.children : XElem → List XElem
  | .mk _ _ _ _ c => c

/-- First binding of an attribute key. -/
def attrGet : List ((String × String) × String) → String × String → Option String
  | [], _ => none
  | (k, v) :: rest, key => if k == key then some v else attrGet rest key

/-- Value of a plain (non-namespaced) attribute. -/
def attrPlain (e : XElem) (name : String) : Option String :=
  attrGet e.attrs ("", name)

/-! ## Emitter configuration (`contexts.yml`, `units.yml`, `entrypoints.yml`) -/

/-- A context period: instant or duration. -/
inductive PeriodDef where
  | instant (date : String)
  | duration (startDate endDate : String)
deriving DecidableEq, Repr

/-- A context definition. -/
structure ContextDef where
  id : String
  scheme : String
  entityValue : String
  period : PeriodDef
deriving DecidableEq, Repr

/-- A unit definition. -/
structure UnitDef where
  id : String
  measure : String
deriving DecidableEq, Repr

/-- The three configuration registries consumed by `XBRLEmitter`. -/
structure EmitterCfg where
  contexts : List (String × ContextDef)
  units : List (String × UnitDef)
  entrypointHref : String
  namespaces : List (String × String)

/-- `_add_schema_ref`: the `link:schemaRef` element. -/
def schemaRefElem (linkNs xlinkNs href : String) : XElem :=
  XElem.mk linkNs "schemaRef"
    [((xlinkNs, "type"), "simple"), ((xlinkNs, "href"), href)] "" []

/-- One `xbrli:context` element as built by `_add_contexts`. -/
def contextElem (xbrliNs : String) (cd : ContextDef) : XElem :=
  XElem.mk xbrliNs "context" [(("", "id"), cd.id)] ""
    [XElem.mk xbrliNs "entity" [] ""
      [XElem.mk xbrliNs "identifier" [(("", "scheme"), cd.scheme)] cd.entityValue []],
     XElem.mk xbrliNs "period" [] ""
      (match cd.period with
       | PeriodDef.instant d => [XElem.mk xbrliNs "instant" [] d []]
       | PeriodDef.duration s e =>
         [XElem.mk xbrliNs "startDate" [] s [], XElem.mk xbrliNs "endDate" [] e []])]

/-- One `xbrli:unit` element as built by `_add_units`. -/
def unitElem (xbrliNs : String) (ud : UnitDef) : XElem :=
  XElem.mk xbrliNs "unit" [(("", "id"), ud.id)] ""
    [XElem.mk xbrliNs "measure" [] ud.measure []]

/-- Rejoin the pieces after the first colon with colons (used to model
`split(':', 1)`, which splits at the first colon only). -/
def joinColon : List (List Char) → List Char
  | [] => []
  | w :: ws =>
    match ws with
    | [] => w
    | _ :: _ => w ++ ':' :: joinColon ws

/-- `concept_qname.split(':', 1)` when the qname contains a colon. -/
def splitConcept (s : String) : Option (String × String) :=
  match s.data.splitOn ':' with
  | [_] => none
  | [] => none
  | pfx :: rest => some (String.mk pfx, String.mk (joinColon rest))

/-- The fact element built for one canonical fact: mandatory `contextRef`,
`unitRef` when present and truthy, `decimals` when not `None`, text equal to
the canonical value. -/
def factElem (nsUri localName : String) (f : CanonicalFact) : XElem :=
  XElem.mk nsUri localName
    ([(("", "contextRef"), f.contextRef)] ++
      (match f.unitRef with
       | some u => if u == "" then [] else [(("", "unitRef"), u)]
       | none => []) ++
      (match f.decimals with
       | some d => [(("", "decimals"), toString d)]
       | none => []))
    f.canonicalValue []

/-- Loop body of `_add_facts`: per fact, resolve the concept's namespace
prefix (falling back to the `gri` namespace when the concept has no prefix),
dropping the fact with a warning when the prefix has no truthy binding. -/
def addFactsGo (ns : List (String × String)) (griNs : String) :
    List CanonicalFact → List XElem × List String
  | [] => ([], [])
  | f :: fs =>
    match addFactsGo ns griNs fs with
    | (es, ws) =>
      match splitConcept f.concept with
      | some (pfx, localName) =>
        match alookup ns pfx with
        | some u =>
          if u == "" then (es, ("Unknown namespace prefix: " ++ pfx) :: ws)
          else (factElem u localName f :: es, ws)
        | none => (es, ("Unknown namespace prefix: " ++ pfx) :: ws)
      | none => (factElem griNs f.concept f :: es, ws)

/-- `_add_facts`: reads `self.namespaces['gri']` first (a `KeyError` if the
binding is absent), then runs the loop.  Returns the fact elements appended to
the root and the recorded warnings. -/
def addFacts (ns : List (String × String)) (facts : List CanonicalFact) :
    Except String (List XElem × List String) :=
  match alookup ns "gri" with
  | none => Except.error "KeyError: gri"
  | some g => Except.ok (addFactsGo ns g facts)

/-- `XBRLEmitter.emit`: root element, schema reference, contexts, units,
facts, in that order.  Dictionary accesses `namespaces['xbrli']`,
`['link']`, `['xlink']` and `['gri']` raise `KeyError` when absent. -/
def emit (cfg : EmitterCfg) (facts : List CanonicalFact) : Except String XElem :=
  match alookup cfg.namespaces "xbrli" with
  | none => Except.error "KeyError: xbrli"
  | some x =>
    match alookup cfg.namespaces "link" with
    | none => Except.error "KeyError: link"
    | some l =>
      match alookup cfg.namespaces "xlink" with
      | none => Except.error "KeyError: xlink"
      | some k =>
        match addFacts cfg.namespaces facts with
        | Except.error e => Except.error e
        | Except.ok (fes, _) =>
          Except.ok (XElem.mk x "xbrl" [] ""
            (schemaRefElem l k cfg.entrypointHref ::
              (cfg.contexts.map (fun p => contextElem x p.2) ++
                (cfg.units.map (fun p => unitElem x p.2) ++ fes))))

/-- Whether an `Except` is a success. -/
def isOkE {ε α : Type} : Except ε α → Bool
  | Except.ok _ => true
  | Except.error _ => false

/-- Whether an `Except` is a failure. -/
def isErrE {ε α : Type} : Except ε α → Bool
  | Except.ok _ => false
  | Except.error _ => true

/-- Children of the emitted root, `[]` when emission failed. -/
def emitChildren (cfg : EmitterCfg) (facts : List CanonicalFact) : List XElem :=
  match emit cfg facts with
  | Except.ok r => r.children
  | Except.error _ => []

/-! ## Serialization and `XBRLEmitter.save` (`emit_xbrl.py`)

`save` serializes the whole tree into one byte string
(`etree.tostring(..., xml_declaration=True)`), then opens the destination for
writing (truncating it) and writes the buffer in a single call.  The
file-system effects are modelled as an event trace so the observable states
of the destination path can be stated. -/

/-- A single quote character (used by the serialized XML declaration). -/
def singleQuote : String := String.mk [Char.ofNat 39]

/-- The XML declaration emitted by `etree.tostring(..., xml_declaration=True,
encoding='utf-8')`. -/
def xmlDecl : String :=
  "<?xml version=" ++ singleQuote ++ "1.0" ++ singleQuote ++ " encoding=" ++
    singleQuote ++ "UTF-8" ++ singleQuote ++ "?>" ++ "\n"

/-- Render an attribute list. -/
def renderAttrs : List ((String × String) × String) → String
  | [] => ""
  | ((ns, n), v) :: rest =>
    " " ++ (if ns == "" then n else ns ++ ":" ++ n) ++ "=" ++ "\"" ++ v ++ "\"" ++
      renderAttrs rest

mutual

/-- Serialize one element. -/
def renderElem : XElem → String
  | XElem.mk _ l attrs t cs =>
    "<" ++ l ++ renderAttrs attrs ++ ">" ++ t ++ renderKids cs ++ "</" ++ l ++ ">"

/-- Serialize a child list in document order. -/
def renderKids : List XElem → String
  | [] => ""
  | e :: es => renderElem e ++ renderKids es

end

/-- `etree.tostring(root, xml_declaration=True)`: one buffer holding the
declaration followed by the serialized tree. -/
def tostring (root : XElem) : String := xmlDecl ++ renderElem root

/-- File-system effects performed while saving. -/
inductive FsEvent where
  | mkdirParents (dir : String)
  | openTrunc (path : String)
  | writeAll (path : String) (data : String)
  | closeFile (path : String)
deriving DecidableEq

/-- Observable state of one path. -/
inductive FileState where
  | absent
  | content (s : String)
deriving DecidableEq

/-- Effect of one event on the state of path `p`. -/
def applyEvent (p : String) (st : FileState) : FsEvent → FileState
  | FsEvent.openTrunc q => if q == p then FileState.content "" else st
  | FsEvent.writeAll q d =>
    if q == p then
      match st with
      | FileState.content s => FileState.content (s ++ d)
      | FileState.absent => FileState.content d
    else st
  | _ => st

/-- The state of path `p` after a trace. -/
def runEvents (p : String) (init : FileState) (events : List FsEvent) : FileState :=
  events.foldl (applyEvent p) init

/-- Every observable state of path `p` along a trace (before, between and
after the events). -/
def statesDuring (p : String) (init : FileState) : List FsEvent → List FileState
  | [] => [init]
  | e :: es => init :: statesDuring p (applyEvent p init e) es

/-- `XBRLEmitter.save`: serialize, `open(output_path, 'wb')` (truncate),
write the whole buffer, close. -/
def save (root : XElem) (path : String) : List FsEvent :=
  [FsEvent.openTrunc path, FsEvent.writeAll path (tostring root), FsEvent.closeFile path]

/-- The save as driven by `main` in `emit_xbrl.py`:
`output_path.parent.mkdir(parents=True, exist_ok=True)` then `emitter.save`. -/
def mainSave (root : XElem) (path parentDir : String) : List FsEvent :=
  FsEvent.mkdirParents parentDir :: save root path

/-! ## Validation adapter (`validate_arelle.py`, `run_pipeline.py`)

The adapter's observable environment: whether the Arelle engine is
importable, whether the instance file exists and loads, how many errors the
engine reports, and whether the artifact is well-formed XML (the only input
of the structural fallback that decides its outcome). -/

structure ValEnv where
  arelleInstalled : Bool
  fileExists : Bool
  loadOk : Bool
  engineErrorCount : Nat
  xmlWellFormed : Bool

/-- `validate_with_arelle`: `False` when the import fails, the file is
missing, the model does not load or the engine reported errors; `True`
otherwise. -/
def validate_with_arelle (env : ValEnv) : Bool :=
  if !env.arelleInstalled then false
  else if !env.fileExists then false
  else if !env.loadOk then false
  else if env.engineErrorCount != 0 then false
  else true

/-- `validate_basic_xml`: the structural fallback succeeds exactly when the
artifact parses as XML (the counting it performs is diagnostic output only). -/
def validate_basic_xml (env : ValEnv) : Bool := env.xmlWellFormed

/-- Python `str(...)` on a `bool`. -/
def pyStrOfBool (b : Bool) : String := if b then "True" else "False"

/-- `pat` is a prefix of `l`. -/
def startsWithL : List Char → List Char → Bool
  | [], _ => true
  | _ :: _, [] => false
  | a :: as, b :: bs => a == b && startsWithL as bs

/-- `pat` occurs somewhere inside `l` (Python `pat in s`). -/
def hasInfixL (pat : List Char) : List Char → Bool
  | [] => startsWithL pat []
  | c :: cs => startsWithL pat (c :: cs) || hasInfixL pat cs

/-- Python `pat in s` on strings. -/
def strContainsSub (s pat : String) : Bool := hasInfixL pat.data s.data

/-- Result of `main` in `validate_arelle.py`: the process exit code and
whether the basic-XML fallback branch ran. -/
structure ValMainResult where
  exitCode : Nat
  ranBasicFallback : Bool
deriving DecidableEq, Repr

/-- `main` in `validate_arelle.py`: with `--basic` run the structural check;
otherwise run Arelle validation and fall back to the structural check only if
`"Arelle not installed" in str(success)` — where `success` is the boolean
just returned. -/
def validateMain (env : ValEnv) (basicFlag : Bool) : ValMainResult :=
  if basicFlag then
    { exitCode := if validate_basic_xml env then 0 else 1, ranBasicFallback := false }
  else
    let s1 := validate_with_arelle env
    let fb := !s1 && strContainsSub (pyStrOfBool s1) "Arelle not installed"
    let s2 := if fb then validate_basic_xml env else s1
    { exitCode := if s2 then 0 else 1, ranBasicFallback := fb }

/-- `Pipeline._step_validate`: try Arelle, fall back to the structural check
on any failure, record the result in the stats — and return `True`
unconditionally (the pipeline is never stopped by validation).  The pair is
`(step return value, stats['validation_passed'])`. -/
def step_validate (env : ValEnv) : Bool × Bool :=
  let s1 := validate_with_arelle env
  let s2 := if !s1 then validate_basic_xml env else s1
  (true, s2)

/-! ## Helper lemmas about `pyWords` and `joinWords` -/

/-- A word produced by splitting: nonempty and free of whitespace. -/
def goodWord (w : List Char) : Prop := w ≠ [] ∧ ∀ c ∈ w, isPyWs c = false

theorem wordsAux_goodWords (l : List Char) :
    ∀ cur, (∀ c ∈ cur, isPyWs c = false) → ∀ w ∈ wordsAux cur l, goodWord w := by
  induction l with
  | nil =>
    intro cur hcur w hw
    cases cur with
    | nil => simp [wordsAux] at hw
    | cons c cs =>
      simp [wordsAux] at hw
      subst hw
      refine ⟨by simp, ?_⟩
      intro x hx
      rcases List.mem_append.mp hx with h | h
      · exact hcur x (List.mem_cons_of_mem _ (List.mem_reverse.mp h))
      · have hxc := List.mem_singleton.mp h
        subst hxc
        exact hcur x (List.mem_cons_self x _)
  | cons c cs ih =>
    intro cur hcur w hw
    by_cases hws : isPyWs c = true
    · cases cur with
      | nil =>
        simp [wordsAux, hws] at hw
        exact ih [] (by simp) w hw
      | cons a as =>
        simp [wordsAux, hws] at hw
        rcases hw with hw | hw
        · subst hw
          refine ⟨by simp, ?_⟩
          intro x hx
          rcases List.mem_append.mp hx with h | h
          · exact hcur x (List.mem_cons_of_mem _ (List.mem_reverse.mp h))
          · have hxc := List.mem_singleton.mp h
            subst hxc
            exact hcur x (List.mem_cons_self x _)
        · exact ih [] (by simp) w hw
    · rw [Bool.not_eq_true] at hws
      simp [wordsAux, hws] at hw
      refine ih (c :: cur) ?_ w hw
      intro x hx
      rcases List.mem_cons.mp hx with h | h
      · simpa [h] using hws
      · exact hcur x h

theorem wordsAux_append_word (w : List Char) :
    ∀ cur rest, (∀ c ∈ w, isPyWs c = false) →
      wordsAux cur (w ++ rest) = wordsAux (w.reverse ++ cur) rest := by
  induction w with
  | nil => intro cur rest _; simp
  | cons c cs ih =>
    intro cur rest hw
    have hc : isPyWs c = false := hw c (by simp)
    have hcs : ∀ x ∈ cs, isPyWs x = false := fun x hx => hw x (by simp [hx])
    calc wordsAux cur ((c :: cs) ++ rest)
        = wordsAux (c :: cur) (cs ++ rest) := by simp [wordsAux, hc]
      _ = wordsAux (cs.reverse ++ (c :: cur)) rest := ih (c :: cur) rest hcs
      _ = wordsAux ((c :: cs).reverse ++ cur) rest := by simp [List.append_assoc]

theorem pyWords_joinWords (ws : List (List Char)) :
    (∀ w ∈ ws, goodWord w) → pyWords (joinWords ws) = ws := by
  induction ws with
  | nil => intro _; simp [pyWords, joinWords, wordsAux]
  | cons w rest ih =>
    intro hgood
    have hw : goodWord w := hgood w (by simp)
    have hrest : ∀ u ∈ rest, goodWord u := fun u hu => hgood u (by simp [hu])
    cases rest with
    | nil =>
      show wordsAux [] (joinWords [w]) = [w]
      have hjw : joinWords [w] = w ++ [] := by simp [joinWords]
      rw [hjw, wordsAux_append_word w [] [] hw.2, List.append_nil]
      cases hrev : w.reverse with
      | nil => exact absurd (List.reverse_eq_nil_iff.mp hrev) hw.1
      | cons a as => simp [wordsAux, ← hrev, hw.1]
    | cons w2 rest2 =>
      show wordsAux [] (joinWords (w :: w2 :: rest2)) = w :: w2 :: rest2
      have hjw : joinWords (w :: w2 :: rest2) = w ++ ' ' :: joinWords (w2 :: rest2) := by
        simp [joinWords]
      rw [hjw, wordsAux_append_word w [] (' ' :: joinWords (w2 :: rest2)) hw.2,
        List.append_nil]
      cases hrev : w.reverse with
      | nil => exact absurd (List.reverse_eq_nil_iff.mp hrev) hw.1
      | cons a as =>
        have hstep : wordsAux (a :: as) (' ' :: joinWords (w2 :: rest2)) =
            (a :: as).reverse :: wordsAux [] (joinWords (w2 :: rest2)) := by
          simp [wordsAux, isPyWs]
        rw [hstep, ← hrev, List.reverse_reverse]
        have hih := ih hrest
        unfold pyWords at hih
        rw [hih]

/-- Claim C9: the normalize-space transform is idempotent — applying
`_normalize_space` to its own output returns it unchanged. -/
theorem normalize_space_idempotent (v : String) :
    normalize_space (normalize_space v) = normalize_space v := by
  unfold normalize_space
  have hdata : (String.mk (joinWords (pyWords v.data))).data = joinWords (pyWords v.data) := rfl
  rw [hdata, pyWords_joinWords (pyWords v.data)
    (wordsAux_goodWords v.data [] (by simp))]

/-- Claim C10: because the numeric transforms validate by Python float
parsing, `nan`, `inf` and `1e5` pass both `_num_dot_decimal` and
`_num_comma_decimal` unchanged even though none of them belongs to the
decimal-numeral lexical grammar. -/
theorem numeric_transforms_accept_nonnumeric :
    num_dot_decimal "nan" = Except.ok "nan" ∧
    num_dot_decimal "inf" = Except.ok "inf" ∧
    num_dot_decimal "1e5" = Except.ok "1e5" ∧
    num_comma_decimal "nan" = Except.ok "nan" ∧
    num_comma_decimal "inf" = Except.ok "inf" ∧
    num_comma_decimal "1e5" = Except.ok "1e5" ∧
    isDecimalNumeral "nan" = false ∧
    isDecimalNumeral "inf" = false ∧
    isDecimalNumeral "1e5" = false :=
  ⟨rfl, rfl, rfl, rfl, rfl, rfl, rfl, rfl, rfl⟩

/-- The environment of the Claim C8 failing input: Arelle is not installed
and the emitted artifact is well-formed XML. -/
def envC8 : ValEnv :=
  { arelleInstalled := false, fileExists := true, loadOk := true,
    engineErrorCount := 0, xmlWellFormed := true }

/-- Claim C8: the standalone validator's fallback branch is dead code.  With
Arelle unavailable and a well-formed artifact, `main` exits 1 without ever
running the structural check, because `"Arelle not installed" in
str(success)` tests the string of a boolean and is false for both booleans;
and `Pipeline._step_validate` returns `True` unconditionally, so nothing —
not even malformed XML — fails the pipeline's validation step. -/
theorem arelle_fallback_dead_code :
    (validateMain envC8 false).exitCode = 1 ∧
    (validateMain envC8 false).ranBasicFallback = false ∧
    envC8.arelleInstalled = false ∧
    envC8.xmlWellFormed = true ∧
    (∀ b : Bool, strContainsSub (pyStrOfBool b) "Arelle not installed" = false) ∧
    (∀ env : ValEnv, (step_validate env).1 = true) := by
  refine ⟨rfl, rfl, rfl, rfl, ?_, fun env => rfl⟩
  intro b
  cases b <;> rfl

/-! ## Claim C4: the comma-decimal transform -/

/-- Specification-side description of the comma-decimal cleaning: one pass
over the stripped value that drops spaces and dots and maps the comma to a
dot. -/
def specCleanComma (v : String) : String :=
  String.mk ((stripL v.data).foldr
    (fun c acc => if c == ' ' || c == '.' then acc else (if c == ',' then '.' else c) :: acc)
    [])

theorem cleanComma_steps (l : List Char) :
    ((l.filter (fun c => c != ' ')).filter (fun c => c != '.')).map
        (fun c => if c == ',' then '.' else c) =
      l.foldr
        (fun c acc => if c == ' ' || c == '.' then acc else (if c == ',' then '.' else c) :: acc)
        [] := by
  induction l with
  | nil => rfl
  | cons c cs ih =>
    rw [List.foldr_cons, List.filter_cons]
    by_cases hsp : c = ' '
    · subst hsp
      rw [if_neg (by decide), if_pos (by decide)]
      exact ih
    · by_cases hdot : c = '.'
      · subst hdot
        rw [if_pos (by decide), List.filter_cons, if_neg (by decide), if_pos (by decide)]
        exact ih
      · have h1 : (c != ' ') = true := by simp [hsp]
        have h2 : (c != '.') = true := by simp [hdot]
        have h3 : ¬((c == ' ' || c == '.') = true) := by simp [hsp, hdot]
        rw [if_pos h1, List.filter_cons, if_pos h2, List.map_cons, if_neg h3, ih]

theorem cleanComma_eq_spec (v : String) : cleanComma v = specCleanComma v := by
  unfold cleanComma specCleanComma
  congr 1
  exact cleanComma_steps (stripL v.data)

/-- Claim C4: `_num_comma_decimal` removes spaces and dots, converts the
decimal comma to a dot, succeeds exactly when the cleaned value parses as a
Python float (failing with an error naming the value otherwise), and maps
`1 234,56` to `1234.56`. -/
theorem num_comma_decimal_spec (v : String) :
    (num_comma_decimal v = Except.ok (specCleanComma v) ∨
      num_comma_decimal v = Except.error ("Invalid number format: " ++ v))
    ∧ (num_comma_decimal v = Except.ok (specCleanComma v) ↔
        pyFloatAccepts (specCleanComma v) = true)
    ∧ num_comma_decimal "1 234,56" = Except.ok "1234.56" := by
  have hc : cleanComma v = specCleanComma v := cleanComma_eq_spec v
  by_cases hacc : pyFloatAccepts (specCleanComma v) = true
  · have hok : num_comma_decimal v = Except.ok (specCleanComma v) := by
      simp [num_comma_decimal, hc, hacc]
    exact ⟨Or.inl hok, ⟨fun _ => hacc, fun _ => hok⟩, rfl⟩
  · have herr : num_comma_decimal v = Except.error ("Invalid number format: " ++ v) := by
      simp [num_comma_decimal, hc, hacc]
    refine ⟨Or.inr herr, ⟨?_, fun h => absurd h hacc⟩, rfl⟩
    intro h
    rw [herr] at h
    exact absurd h (by simp)

/-- Witness for Claim C4 at the spec's own example. -/
theorem num_comma_decimal_spec_witness :
    num_comma_decimal "1 234,56" = Except.ok (specCleanComma "1 234,56") ∧
    specCleanComma "1 234,56" = "1234.56" :=
  ⟨(num_comma_decimal_spec "1 234,56").2.1.mpr (by decide), rfl⟩

/-! ## Claim C2: the three date transforms -/

/-- Claim C2 (amended): only the dot-separated day-month-year transform
validates day and month ranges; the slash-separated day-month-year and the
month-day-year transforms rearrange any pattern-matching input without range
validation; all three fail on inputs that do not match their pattern. -/
theorem date_transforms_spec (v g1 g2 g3 : String) :
    (matchSepDate '.' (stripL v.data) = some (g1, g2, g3) →
      ((1 ≤ strToNat2 g1 ∧ strToNat2 g1 ≤ 31 ∧ 1 ≤ strToNat2 g2 ∧ strToNat2 g2 ≤ 12) →
        date_day_month_year v = Except.ok (g3 ++ "-" ++ g2 ++ "-" ++ g1))
      ∧ ((strToNat2 g1 < 1 ∨ 31 < strToNat2 g1 ∨ strToNat2 g2 < 1 ∨ 12 < strToNat2 g2) →
        isErrE (date_day_month_year v) = true))
    ∧ (matchSepDate '.' (stripL v.data) = none →
        date_day_month_year v = Except.error ("Invalid date format (expected DD.MM.YYYY): " ++ v))
    ∧ (matchSepDate '/' (stripL v.data) = some (g1, g2, g3) →
        date_day_month_year_slash v = Except.ok (g3 ++ "-" ++ g2 ++ "-" ++ g1)
        ∧ date_month_day_year v = Except.ok (g3 ++ "-" ++ g1 ++ "-" ++ g2))
    ∧ (matchSepDate '/' (stripL v.data) = none →
        isErrE (date_day_month_year_slash v) = true
        ∧ isErrE (date_month_day_year v) = true) := by
  refine ⟨fun hm => ⟨fun hr => ?_, fun hnr => ?_⟩, fun hm => ?_, fun hm => ?_, fun hm => ?_⟩
  · have h1 : ¬(strToNat2 g1 = 0 ∨ 31 < strToNat2 g1) := by omega
    have h2 : ¬(strToNat2 g2 = 0 ∨ 12 < strToNat2 g2) := by omega
    simp [date_day_month_year, hm, h1, h2]
  · by_cases hd : strToNat2 g1 < 1 ∨ 31 < strToNat2 g1
    · have h1 : strToNat2 g1 = 0 ∨ 31 < strToNat2 g1 := by omega
      simp [date_day_month_year, hm, h1, isErrE]
    · have h1 : ¬(strToNat2 g1 = 0 ∨ 31 < strToNat2 g1) := by omega
      have h2 : strToNat2 g2 = 0 ∨ 12 < strToNat2 g2 := by
        rcases hnr with h | h | h | h
        · exact absurd (Or.inl h) hd
        · exact absurd (Or.inr h) hd
        · exact Or.inl (by omega)
        · exact Or.inr h
      simp [date_day_month_year, hm, h1, h2, isErrE]
  · simp [date_day_month_year, hm]
  · simp [date_day_month_year_slash, date_month_day_year, hm]
  · simp [date_day_month_year_slash, date_month_day_year, hm, isErrE]

/-- Witness for Claim C2: the dot-separated transform converts a valid date
and rejects the spec's invalid example. -/
theorem date_transforms_spec_witness :
    date_day_month_year "31.12.2025" = Except.ok "2025-12-31" ∧
    isErrE (date_day_month_year "45.13.2025") = true :=
  ⟨((date_transforms_spec "31.12.2025" "31" "12" "2025").1 rfl).1 (by decide),
    ((date_transforms_spec "45.13.2025" "45" "13" "2025").1 rfl).2 (by decide)⟩

/-- Counterexample for Claim C2 as stated: a slash-separated input with day
45 and month 13 is not rejected — it is converted to the out-of-range ISO
date `2025-13-45`. -/
theorem date_slash_no_range_check :
    date_day_month_year_slash "45/13/2025" = Except.ok "2025-13-45" := rfl

/-! ## Claim C7: saving the instance -/

/-- A minimal emitted root for the save counterexample. -/
def rootC7 : XElem := XElem.mk "NX" "xbrl" [] "" []

/-- Claim C7 (amended): the save creates parent directories first, writes the
complete serialized document (declaration included) in a single write and
closes, so the final state holds the full document — but the write is not
atomic: the destination is truncated before the write, so an existing-but-
incomplete (empty) file is observable between the two steps. -/
theorem save_full_write_spec (root : XElem) (path parentDir : String) (init : FileState) :
    runEvents path init (mainSave root path parentDir) = FileState.content (tostring root)
    ∧ statesDuring path init (mainSave root path parentDir) =
        [init, init, FileState.content "", FileState.content (tostring root),
          FileState.content (tostring root)]
    ∧ xmlDecl.data <+: (tostring root).data
    ∧ tostring root ≠ "" := by
  refine ⟨?_, ?_, ?_, ?_⟩
  · simp [mainSave, save, runEvents, applyEvent]
  · simp [mainSave, save, statesDuring, applyEvent]
  · exact ⟨(renderElem root).data, by simp [tostring]⟩
  · intro h
    have hlen := congrArg String.length h
    have hx : 0 < xmlDecl.length := by decide
    simp [tostring, String.length_append] at hlen
    omega

/-- Counterexample for Claim C7 as stated: while saving, the destination is
observable in a state where the file exists but holds none of the serialized
document — it is neither absent nor complete. -/
theorem save_truncated_state_visible :
    (statesDuring "out/report.xbrl" FileState.absent
        (mainSave rootC7 "out/report.xbrl" "out")).get? 2 = some (FileState.content "")
    ∧ FileState.content "" ≠ FileState.content (tostring rootC7)
    ∧ runEvents "out/report.xbrl" FileState.absent
        (mainSave rootC7 "out/report.xbrl" "out") = FileState.content (tostring rootC7) := by
  refine ⟨rfl, by decide, rfl⟩

/-! ## Claims C1, C3 and C6: the emitter

The per-fact namespace resolution of the `_add_facts` loop, written as two
specification-side partial functions: the element a fact contributes (if
any), and the warning it records (if any). -/

/-- The element `_add_facts` appends for a fact, `none` when the fact is
dropped. -/
def resolveFact (ns : List (String × String)) (griNs : String)
    (f : CanonicalFact) : Option XElem :=
  match splitConcept f.concept with
  | some (pfx, localName) =>
    match alookup ns pfx with
    | some u => if u == "" then none else some (factElem u localName f)
    | none => none
  | none => some (factElem griNs f.concept f)

/-- The warning `_add_facts` records for a fact, `none` when the fact is
emitted. -/
def unresolvedWarning (ns : List (String × String)) (f : CanonicalFact) :
    Option String :=
  match splitConcept f.concept with
  | some (pfx, _) =>
    match alookup ns pfx with
    | some u => if u == "" then some ("Unknown namespace prefix: " ++ pfx) else none
    | none => some ("Unknown namespace prefix: " ++ pfx)
  | none => none

theorem addFactsGo_eq (ns : List (String × String)) (g : String)
    (facts : List CanonicalFact) :
    addFactsGo ns g facts =
      (facts.filterMap (resolveFact ns g), facts.filterMap (unresolvedWarning ns)) := by
  induction facts with
  | nil => rfl
  | cons f fs ih =>
    simp only [addFactsGo, ih, List.filterMap_cons]
    cases hsc : splitConcept f.concept with
    | none => simp [resolveFact, unresolvedWarning, hsc]
    | some p =>
      obtain ⟨pfx, ln⟩ := p
      cases hlk : alookup ns pfx with
      | none => simp [resolveFact, unresolvedWarning, hsc, hlk]
      | some u =>
        by_cases hu : u == ""
        · simp [resolveFact, unresolvedWarning, hsc, hlk, hu]
        · simp [resolveFact, unresolvedWarning, hsc, hlk, hu]

theorem addFacts_eq (ns : List (String × String)) (g : String)
    (facts : List CanonicalFact) (hg : alookup ns "gri" = some g) :
    addFacts ns facts =
      Except.ok (facts.filterMap (resolveFact ns g),
        facts.filterMap (unresolvedWarning ns)) := by
  simp [addFacts, hg, addFactsGo_eq]

theorem emit_ok_eq (cfg : EmitterCfg) (facts : List CanonicalFact) (x l k g : String)
    (hx : alookup cfg.namespaces "xbrli" = some x)
    (hl : alookup cfg.namespaces "link" = some l)
    (hk : alookup cfg.namespaces "xlink" = some k)
    (hg : alookup cfg.namespaces "gri" = some g) :
    emit cfg facts = Except.ok (XElem.mk x "xbrl" [] ""
      (schemaRefElem l k cfg.entrypointHref ::
        (cfg.contexts.map (fun p => contextElem x p.2) ++
          (cfg.units.map (fun p => unitElem x p.2) ++
            facts.filterMap (resolveFact cfg.namespaces g))))) := by
  simp [emit, hx, hl, hk, addFacts, hg, addFactsGo_eq]

theorem factElem_attrs (nsUri ln : String) (f : CanonicalFact) :
    attrPlain (factElem nsUri ln f) "contextRef" = some f.contextRef
    ∧ attrPlain (factElem nsUri ln f) "unitRef" =
        (match f.unitRef with
         | some u => if u == "" then none else some u
         | none => none) := by
  constructor
  · simp [factElem, attrPlain, attrGet]
  · cases hu : f.unitRef with
    | none => cases hd : f.decimals <;> simp [factElem, attrPlain, attrGet, hu, hd]
    | some u =>
      by_cases hue : u == ""
      · cases hd : f.decimals <;> simp [factElem, attrPlain, attrGet, hu, hue, hd]
      · cases hd : f.decimals <;> simp [factElem, attrPlain, attrGet, hu, hue, hd]

/-- Claim C6: a fact's namespace is resolved from its concept's prefix; a
concept without a prefix falls back to the configured `gri` namespace; an
unresolved (or empty) prefix binding drops only that fact, with a recorded
warning, and with the default binding configured the whole `_add_facts` pass
never fails. -/
theorem add_facts_namespace_resolution (ns : List (String × String)) (g : String)
    (facts : List CanonicalFact) (hg : alookup ns "gri" = some g) :
    addFacts ns facts =
      Except.ok (facts.filterMap (resolveFact ns g),
        facts.filterMap (unresolvedWarning ns))
    ∧ (∀ f : CanonicalFact, splitConcept f.concept = none →
        resolveFact ns g f = some (factElem g f.concept f))
    ∧ (∀ f : CanonicalFact, resolveFact ns g f = none ↔ unresolvedWarning ns f ≠ none) := by
  refine ⟨addFacts_eq ns g facts hg, fun f hf => by simp [resolveFact, hf], fun f => ?_⟩
  unfold resolveFact unresolvedWarning
  cases hsc : splitConcept f.concept with
  | none => simp
  | some p =>
    obtain ⟨pfx, ln⟩ := p
    cases hlk : alookup ns pfx with
    | none => simp [hlk]
    | some u => by_cases hu : u == "" <;> simp [hlk, hu]

/-- Configuration for a Claim C6 witness: `gri` bound, `foo` bound, `bar`
unbound. -/
def nsW6 : List (String × String) := [("gri", "NG"), ("foo", "NF")]

/-- A canonical fact with the given concept (witness data). -/
def mkFactW (concept : String) : CanonicalFact :=
  { factId := "w", rawValue := "1", canonicalValue := "1", concept := concept,
    typ := "t", contextRef := "C", decimals := none, unitRef := none }

/-- Witness for Claim C6: one resolvable prefix, one unresolvable prefix
(dropped, warned), one prefix-free concept (default namespace). -/
theorem add_facts_namespace_resolution_witness :
    addFacts nsW6 [mkFactW "foo:X", mkFactW "bar:Y", mkFactW "Plain"] =
      Except.ok ([factElem "NF" "X" (mkFactW "foo:X"),
          factElem "NG" "Plain" (mkFactW "Plain")],
        ["Unknown namespace prefix: bar"]) :=
  (add_facts_namespace_resolution nsW6 "NG"
    [mkFactW "foo:X", mkFactW "bar:Y", mkFactW "Plain"] rfl).1.trans rfl

/-- The context registry entry used by the Claim C1 counterexample. -/
def ctxC1 : ContextDef :=
  { id := "C_2025", scheme := "sch", entityValue := "ENT",
    period := PeriodDef.instant "2025-12-31" }

/-- Emitter configuration whose registries contain only context `C_2025` and
no units. -/
def cfgC1 : EmitterCfg :=
  { contexts := [("C_2025", ctxC1)], units := [], entrypointHref := "tax.xsd",
    namespaces := [("xbrli", "NX"), ("link", "NL"), ("xlink", "NK"), ("gri", "NG")] }

/-- A canonical fact whose context and unit references resolve to nothing in
`cfgC1`. -/
def factC1 : CanonicalFact :=
  { factId := "f1", rawValue := "1", canonicalValue := "1", concept := "gri:Revenue",
    typ := "monetary", contextRef := "C_MISSING", decimals := some (-2),
    unitRef := some "U_MISSING" }

/-- Counterexample for Claim C1 as stated: with both references dangling,
emission succeeds — there is no integrity check and no ConfigError — and the
fact element carries the dangling ids verbatim. -/
theorem emit_dangling_refs_ok :
    emit cfgC1 [factC1] =
      Except.ok (XElem.mk "NX" "xbrl" [] ""
        [schemaRefElem "NL" "NK" "tax.xsd", contextElem "NX" ctxC1,
          factElem "NG" "Revenue" factC1])
    ∧ attrPlain (factElem "NG" "Revenue" factC1) "contextRef" = some "C_MISSING"
    ∧ attrPlain (factElem "NG" "Revenue" factC1) "unitRef" = some "U_MISSING"
    ∧ alookup cfgC1.contexts "C_MISSING" = none
    ∧ alookup cfgC1.units "U_MISSING" = none :=
  ⟨rfl, rfl, rfl, rfl, rfl⟩

/-- Claim C1 (amended): the emitter performs no referential-integrity check.
Whenever the four namespace bindings it reads are configured, emission
succeeds regardless of any relation between fact references and the loaded
context/unit registries, and every emitted fact element carries its fact's
`contextRef` and `unitRef` verbatim. -/
theorem emit_no_reference_check (cfg : EmitterCfg) (facts : List CanonicalFact)
    (x l k g : String)
    (hx : alookup cfg.namespaces "xbrli" = some x)
    (hl : alookup cfg.namespaces "link" = some l)
    (hk : alookup cfg.namespaces "xlink" = some k)
    (hg : alookup cfg.namespaces "gri" = some g) :
    isOkE (emit cfg facts) = true
    ∧ (∀ f : CanonicalFact, ∀ e : XElem, resolveFact cfg.namespaces g f = some e →
        attrPlain e "contextRef" = some f.contextRef
        ∧ attrPlain e "unitRef" =
            (match f.unitRef with
             | some u => if u == "" then none else some u
             | none => none)) := by
  refine ⟨by rw [emit_ok_eq cfg facts x l k g hx hl hk hg]; rfl, fun f e hre => ?_⟩
  unfold resolveFact at hre
  cases hsc : splitConcept f.concept with
  | none =>
    simp only [hsc] at hre
    injection hre with he
    subst he
    exact factElem_attrs g f.concept f
  | some p =>
    obtain ⟨pfx, ln⟩ := p
    simp only [hsc] at hre
    cases hlk : alookup cfg.namespaces pfx with
    | none =>
      simp only [hlk] at hre
      cases hre
    | some u =>
      simp only [hlk] at hre
      by_cases hu : u == ""
      · simp only [if_pos hu] at hre
        cases hre
      · simp only [if_neg hu] at hre
        injection hre with he
        subst he
        exact factElem_attrs u ln f

/-- Witness for Claim C1 (amended) at the counterexample input. -/
theorem emit_no_reference_check_witness :
    isOkE (emit cfgC1 [factC1]) = true
    ∧ attrPlain (factElem "NG" "Revenue" factC1) "contextRef" = some "C_MISSING" := by
  have h := emit_no_reference_check cfgC1 [factC1] "NX" "NL" "NK" "NG" rfl rfl rfl rfl
  exact ⟨h.1, (h.2 factC1 (factElem "NG" "Revenue" factC1) rfl).1⟩

/-- Claim C3 (amended): the emitted root's children are exactly one schema
reference, then the contexts in registry order, then the units in registry
order, then one element per emitted fact in the order of the canonical-facts
list handed to `emit`. -/
theorem emit_child_order (cfg : EmitterCfg) (facts : List CanonicalFact)
    (x l k g : String)
    (hx : alookup cfg.namespaces "xbrli" = some x)
    (hl : alookup cfg.namespaces "link" = some l)
    (hk : alookup cfg.namespaces "xlink" = some k)
    (hg : alookup cfg.namespaces "gri" = some g) :
    isOkE (emit cfg facts) = true
    ∧ emitChildren cfg facts =
        schemaRefElem l k cfg.entrypointHref ::
          (cfg.contexts.map (fun p => contextElem x p.2) ++
            (cfg.units.map (fun p => unitElem x p.2) ++
              facts.filterMap (resolveFact cfg.namespaces g))) := by
  have he := emit_ok_eq cfg facts x l k g hx hl hk hg
  constructor
  · rw [he]
    rfl
  · unfold emitChildren
    rw [he]
    rfl

/-- Fact definitions for the Claim C3 counterexample (registry order A then
B). -/
def defA : FactDef :=
  { concept := "gri:FactA", typ := "string", contextRef := "CA", decimals := none,
    unitRef := none, transform := none }

/-- Second registry entry. -/
def defB : FactDef :=
  { concept := "gri:FactB", typ := "string", contextRef := "CA", decimals := none,
    unitRef := none, transform := none }

/-- Registry iterated in order A, B. -/
def regC3 : List (String × FactDef) := [("A", defA), ("B", defB)]

/-- Raw facts in document order B, A — the opposite of the registry order. -/
def rawC3 : List RawFact :=
  [{ factId := "B", rawText := "vb", position := 1 },
    { factId := "A", rawText := "va", position := 2 }]

/-- Emitter configuration for the Claim C3 counterexample. -/
def cfgC3 : EmitterCfg :=
  { contexts := [("CA", ctxC1)], units := [("U", { id := "U", measure := "m" })],
    entrypointHref := "t.xsd",
    namespaces := [("xbrli", "NX"), ("link", "NL"), ("xlink", "NK"), ("gri", "NG")] }

/-- Local names of the emitted root's children for the C3 pipeline run. -/
def childNamesC3 : List String :=
  (emitChildren cfgC3 (normalizeAll regC3 [] rawC3).1).map XElem.localName

/-- Counterexample for Claim C3 as stated: the registry is iterated in order
A, B, but the emitted facts appear in order B, A — the order of the
canonical-facts list (document order), not the registry iteration order. -/
theorem emit_fact_order_not_registry :
    regC3.map Prod.fst = ["A", "B"]
    ∧ rawC3.map RawFact.factId = ["B", "A"]
    ∧ childNamesC3 = ["schemaRef", "context", "unit", "FactB", "FactA"] :=
  ⟨rfl, rfl, rfl⟩

/-- Witness for Claim C3 (amended) at the counterexample configuration. -/
theorem emit_child_order_witness :
    isOkE (emit cfgC3 (normalizeAll regC3 [] rawC3).1) = true
    ∧ emitChildren cfgC3 (normalizeAll regC3 [] rawC3).1 =
        schemaRefElem "NL" "NK" "t.xsd" ::
          (cfgC3.contexts.map (fun p => contextElem "NX" p.2) ++
            (cfgC3.units.map (fun p => unitElem "NX" p.2) ++
              (normalizeAll regC3 [] rawC3).1.filterMap (resolveFact cfgC3.namespaces "NG"))) :=
  emit_child_order cfgC3 (normalizeAll regC3 [] rawC3).1 "NX" "NL" "NK" "NG" rfl rfl rfl rfl

/-! ## Claim C5: the normalization batch -/

/-- Recognize a lookup error caused by the given `factId`. -/
def isLookupErrFor (id : String) : NormError → Bool
  | NormError.lookupErr i => i == id
  | _ => false

theorem normalizeStep_ok_factId (reg : List (String × FactDef)) (tns : List String)
    (rf : RawFact) (c : CanonicalFact)
    (h : normalizeStep reg tns rf = Except.ok c) : c.factId = rf.factId := by
  unfold normalizeStep at h
  cases hl : alookup reg rf.factId with
  | none =>
    simp only [hl] at h
    exact Except.noConfusion h
  | some fd =>
    simp only [hl] at h
    cases hres : applyDeclared tns fd rf.rawText with
    | ok cv =>
      simp only [hres] at h
      injection h with h
      subst h
      rfl
    | error e =>
      simp only [hres] at h
      exact Except.noConfusion h

theorem normalizeStep_error_factId (reg : List (String × FactDef)) (tns : List String)
    (rf : RawFact) (e : NormError)
    (h : normalizeStep reg tns rf = Except.error e) :
    e = NormError.lookupErr rf.factId ∨ ∃ m, e = NormError.validationErr rf.factId m := by
  unfold normalizeStep at h
  cases hl : alookup reg rf.factId with
  | none =>
    simp only [hl] at h
    injection h with h
    exact Or.inl h.symm
  | some fd =>
    simp only [hl] at h
    cases hres : applyDeclared tns fd rf.rawText with
    | ok cv =>
      simp only [hres] at h
      exact Except.noConfusion h
    | error m =>
      simp only [hres] at h
      injection h with h
      exact Or.inr ⟨m, h.symm⟩

theorem normalizeStep_unknown (reg : List (String × FactDef)) (tns : List String)
    (rf : RawFact) (h : alookup reg rf.factId = none) :
    normalizeStep reg tns rf = Except.error (NormError.lookupErr rf.factId) := by
  simp [normalizeStep, h]

theorem normalizeAll_length (reg : List (String × FactDef)) (tns : List String)
    (rfs : List RawFact) :
    (normalizeAll reg tns rfs).1.length + (normalizeAll reg tns rfs).2.length =
      rfs.length := by
  induction rfs with
  | nil => rfl
  | cons rf rest ih =>
    cases hrec : normalizeAll reg tns rest with
    | mk cs es =>
      rw [hrec] at ih
      cases hs : normalizeStep reg tns rf with
      | ok c =>
        simp only [normalizeAll, hs, hrec, List.length_cons]
        simp at ih ⊢
        omega
      | error e =>
        simp only [normalizeAll, hs, hrec, List.length_cons]
        simp at ih ⊢
        omega

theorem normalizeAll_count_unknown (reg : List (String × FactDef)) (tns : List String)
    (id : String) (hid : alookup reg id = none) (rfs : List RawFact) :
    (normalizeAll reg tns rfs).2.countP (isLookupErrFor id) =
        rfs.countP (fun rf => rf.factId == id)
    ∧ (normalizeAll reg tns rfs).1.countP (fun c => c.factId == id) = 0 := by
  induction rfs with
  | nil => exact ⟨rfl, rfl⟩
  | cons rf rest ih =>
    cases hrec : normalizeAll reg tns rest with
    | mk cs es =>
      rw [hrec] at ih
      by_cases hf : rf.factId = id
      · have hs : normalizeStep reg tns rf = Except.error (NormError.lookupErr rf.factId) :=
          normalizeStep_unknown reg tns rf (by rw [hf]; exact hid)
        refine ⟨?_, ?_⟩
        · simp only [normalizeAll, hs, hrec, List.countP_cons]
          simp [isLookupErrFor, hf, ih.1]
        · simp only [normalizeAll, hs, hrec]
          exact ih.2
      · cases hs : normalizeStep reg tns rf with
        | ok c =>
          have hc : c.factId = rf.factId := normalizeStep_ok_factId reg tns rf c hs
          refine ⟨?_, ?_⟩
          · simp only [normalizeAll, hs, hrec]
            simp [List.countP_cons, ih.1, hf]
          · simp only [normalizeAll, hs, hrec, List.countP_cons]
            have : (c.factId == id) = false := by
              simp [hc, hf]
            simp [this, ih.2]
        | error e =>
          have he := normalizeStep_error_factId reg tns rf e hs
          have hno : isLookupErrFor id e = false := by
            rcases he with he | ⟨m, he⟩
            · subst he
              simp [isLookupErrFor, hf]
            · subst he
              simp [isLookupErrFor]
          refine ⟨?_, ?_⟩
          · simp only [normalizeAll, hs, hrec, List.countP_cons]
            simp [hno, ih.1, hf]
          · simp only [normalizeAll, hs, hrec]
            exact ih.2

/-- Claim C5: normalization attempts every raw fact (each contributes exactly
one outcome, so canonical facts plus errors account for the whole batch); a
raw fact whose `factId` is unknown yields exactly one lookup error and no
canonical fact; and the step's outcome is failure — reported after the whole
batch — precisely when the accumulated error count is nonzero. -/
theorem normalize_batch_spec (reg : List (String × FactDef)) (tns : List String)
    (rfs : List RawFact) :
    ((normalizeAll reg tns rfs).1.length + (normalizeAll reg tns rfs).2.length = rfs.length)
    ∧ (normalizeFails reg tns rfs = true ↔ (normalizeAll reg tns rfs).2.length ≠ 0)
    ∧ (∀ id : String, alookup reg id = none →
        (normalizeAll reg tns rfs).2.countP (isLookupErrFor id) =
            rfs.countP (fun rf => rf.factId == id)
        ∧ (normalizeAll reg tns rfs).1.countP (fun c => c.factId == id) = 0) := by
  refine ⟨normalizeAll_length reg tns rfs, ?_,
    fun id hid => normalizeAll_count_unknown reg tns id hid rfs⟩
  cases h : (normalizeAll reg tns rfs).2 with
  | nil => simp [normalizeFails, h]
  | cons e es => simp [normalizeFails, h]

/-- Registry for the Claim C5 witness: only `a` is defined. -/
def regW5 : List (String × FactDef) := [("a", defA)]

/-- Raw facts for the Claim C5 witness: `b` is unknown, `a` is known. -/
def rfsW5 : List RawFact :=
  [{ factId := "b", rawText := "x", position := 1 },
    { factId := "a", rawText := "y", position := 2 }]

/-- Witness for Claim C5 on a batch with one unknown and one known fact. -/
theorem normalize_batch_spec_witness :
    alookup regW5 "b" = none
    ∧ (normalizeAll regW5 [] rfsW5).2.countP (isLookupErrFor "b") =
        rfsW5.countP (fun rf => rf.factId == "b")
    ∧ (normalizeAll regW5 [] rfsW5).1.countP (fun c => c.factId == "b") = 0 :=
  ⟨rfl, ((normalize_batch_spec regW5 [] rfsW5).2.2 "b" rfl).1,
    ((normalize_batch_spec regW5 [] rfsW5).2.2 "b" rfl).2⟩

end DocxXbrl
